import Mathlib

/-!
Shallow embedding of `src/main.py` (an Elasticsearch index-lifecycle and
bulk-load pipeline for property records) together with theorems checking the
repository specification against it.

The embedding models:
* Python string-to-float conversion (`float(...)`) on the values a
  `csv.DictReader` can supply, as an exact-valued parse of Python's float
  literal grammar (sign, optional whitespace, `inf`/`nan`, decimal mantissa
  with underscores, optional exponent);
* `csv.DictReader` rows as association lists from header names to values,
  with short records padded by the absent value `None`;
* the Elasticsearch client as an explicit state (named indices holding
  settings, mappings and documents) plus a trace of wire requests;
* `delete_tmp_files` over a one-level directory listing.
-/

namespace Main

/-- Exact value of a successfully parsed Python float literal:
`finite m e` denotes the exact value `m * 10 ^ e` (before IEEE rounding,
which no claim depends on); `inf`/`nan` record the sign that preceded the
literal. -/
inductive PFloat where
  | finite (mantissa : Int) (exponent10 : Int)
  | inf (neg : Bool)
  | nan (neg : Bool)
  deriving DecidableEq, Repr

/-- A Python value as it occurs in a row dict of this script: a CSV string,
`None` (the absent-value marker), or a float produced by coercion. -/
inductive Val where
  | vstr (s : String)
  | vnone
  | vfloat (p : PFloat)
  deriving DecidableEq, Repr

/-- The Python exceptions relevant to the script. -/
inductive PyExc where
  | valueError
  | typeError
  | keyError (key : String)
  deriving DecidableEq, Repr

/-- ASCII whitespace stripped by Python before parsing a float from a string. -/
def isPySpace (c : Char) : Bool :=
  c == ' ' || c == '\t' || c == '\n' || c == '\r' || c == '\x0b' || c == '\x0c'

/-- Numeric value of an ASCII digit character. -/
def digitVal (c : Char) : Nat := c.toNat - '0'.toNat

/-- Consume the remainder of a digit group, allowing a single underscore
between two digits (Python numeric-literal grammar). Returns the accumulated
value, the digit count, and the unconsumed rest. -/
def grabMore (acc count : Nat) : List Char → Nat × Nat × List Char
  | [] => (acc, count, [])
  | '_' :: d :: rest =>
      if d.isDigit then grabMore (acc * 10 + digitVal d) (count + 1) rest
      else (acc, count, '_' :: d :: rest)
  | c :: rest =>
      if c.isDigit then grabMore (acc * 10 + digitVal c) (count + 1) rest
      else (acc, count, c :: rest)

/-- Consume a nonempty digit group: `digit (("_")? digit)*`. -/
def grabDigits : List Char → Option (Nat × Nat × List Char)
  | [] => none
  | c :: rest => if c.isDigit then some (grabMore (digitVal c) 1 rest) else none

/-- Parse the decimal form `[digits][.digits][(e|E)[sign]digits]` (at least one
mantissa digit, the whole input consumed), yielding the exact value. -/
def parseDec (neg : Bool) (cs : List Char) : Option PFloat :=
  let intPart :=
    match grabDigits cs with
    | some r => r
    | none => (0, 0, cs)
  let rest := intPart.2.2
  let fracPart :=
    match rest with
    | '.' :: r =>
        match grabDigits r with
        | some q => q
        | none => (0, 0, r)
    | _ => (0, 0, rest)
  let icnt := intPart.2.1
  let fcnt := fracPart.2.1
  let rest2 := fracPart.2.2
  if icnt + fcnt == 0 then none
  else
    let mNat : Nat := intPart.1 * 10 ^ fcnt + fracPart.1
    let m : Int := if neg then -(mNat : Int) else (mNat : Int)
    match rest2 with
    | [] => some (PFloat.finite m (-(fcnt : Int)))
    | e :: r =>
        if e == 'e' || e == 'E' then
          let expPart :=
            match r with
            | '+' :: t => (false, t)
            | '-' :: t => (true, t)
            | _ => (false, r)
          match grabDigits expPart.2 with
          | some (ev, _, []) =>
              let ee : Int := if expPart.1 then -(ev : Int) else (ev : Int)
              some (PFloat.finite m (ee - (fcnt : Int)))
          | _ => none
        else none

/-- After an optional sign: `inf`/`infinity`/`nan` (case-insensitive) or a
decimal literal. -/
def parseAfterSign (neg : Bool) (cs : List Char) : Option PFloat :=
  let low := cs.map Char.toLower
  if low == "inf".toList || low == "infinity".toList then some (PFloat.inf neg)
  else if low == "nan".toList then some (PFloat.nan neg)
  else parseDec neg cs

/-- Model of the Python builtin `float` applied to a string: strip surrounding
whitespace, read an optional sign, then an `inf`/`nan` keyword or a decimal
literal; `none` models a `ValueError`. -/
def pyFloatOfString (s : String) : Option PFloat :=
  let stripped := ((s.toList.dropWhile isPySpace).reverse.dropWhile isPySpace).reverse
  match stripped with
  | '+' :: rest => parseAfterSign false rest
  | '-' :: rest => parseAfterSign true rest
  | _ => parseAfterSign false stripped

/-- The Python builtin `float` on a script value: a string parses or raises
`ValueError`; `None` raises `TypeError`; a float is returned unchanged. -/
def pyFloat : Val → Except PyExc PFloat
  | Val.vstr s =>
      match pyFloatOfString s with
      | some p => Except.ok p
      | none => Except.error PyExc.valueError
  | Val.vnone => Except.error PyExc.typeError
  | Val.vfloat p => Except.ok p

/-- `load_es.to_float` (src/main.py lines 130-135): `try: return float(value)`
with `except (ValueError, TypeError): return None`; any other exception would
propagate. -/
def to_float (value : Val) : Except PyExc Val :=
  match pyFloat value with
  | Except.ok p => Except.ok (Val.vfloat p)
  | Except.error PyExc.valueError => Except.ok Val.vnone
  | Except.error PyExc.typeError => Except.ok Val.vnone
  | Except.error e => Except.error e

/-- The value `to_float` returns (it can never raise on script inputs: the
builtin only signals `ValueError` or `TypeError` there, both caught). -/
def toFloatV : Val → Val
  | Val.vstr s =>
      match pyFloatOfString s with
      | some p => Val.vfloat p
      | none => Val.vnone
  | Val.vnone => Val.vnone
  | Val.vfloat p => Val.vfloat p

/-- `csv.DictReader` row construction: header names zipped with the record's
string values; a record shorter than the header fills the remaining keys with
the reader's default `restval`, i.e. `None`. (Values beyond the header's
length, which the reader would stash under the `restkey` key, are outside
this model; theorems about whole rows hypothesise records no longer than the
header.) -/
def mkRow : List String → List String → List (String × Val)
  | [], _ => []
  | f :: fs, [] => (f, Val.vnone) :: mkRow fs []
  | f :: fs, v :: vs => (f, Val.vstr v) :: mkRow fs vs

/-- Python dict read `row[key]`: `KeyError` when the key is absent. -/
def dictGet (row : List (String × Val)) (key : String) : Except PyExc Val :=
  match List.lookup key row with
  | some v => Except.ok v
  | none => Except.error (PyExc.keyError key)

/-- Python dict write `row[key] = v` for a key already present: replace the
value in place, leaving every other entry unchanged. -/
def dictUpdate : List (String × Val) → String → Val → List (String × Val)
  | [], _, _ => []
  | p :: t, key, v =>
      (if p.1 == key then (key, v) else p) :: dictUpdate t key v

/-- One bulk action as yielded by `load_es.generate_actions`. -/
structure Action where
  index : String
  id : Val
  source : List (String × Val)
  deriving DecidableEq, Repr

/-- The statement `row[col] = to_float(row[col])` for one column: the read
raises `KeyError` when the column is absent from the row; otherwise the
coerced value replaces the old one. -/
def coerceField (row : List (String × Val)) (col : String) :
    Except PyExc (List (String × Val)) :=
  match dictGet row col with
  | Except.error e => Except.error e
  | Except.ok v =>
      match to_float v with
      | Except.error e => Except.error e
      | Except.ok fv => Except.ok (dictUpdate row col fv)

/-- The body of `load_es.generate_actions` for one row: coerce
`property_xcoord` then `property_ycoord`, then yield the action with `_id`
taken from `row["property_id"]` and `_source` the (mutated) row itself. -/
def processRow (index_name : String) (row : List (String × Val)) :
    Except PyExc Action :=
  match coerceField row "property_xcoord" with
  | Except.error e => Except.error e
  | Except.ok row1 =>
      match coerceField row1 "property_ycoord" with
      | Except.error e => Except.error e
      | Except.ok row2 =>
          match dictGet row2 "property_id" with
          | Except.error e => Except.error e
          | Except.ok pid => Except.ok ⟨index_name, pid, row2⟩

/-- `load_es.generate_actions` run to completion over the reader's records
(the generator consumed by `helpers.bulk`); a raised exception propagates. -/
def generate_actions (index_name : String) (fns : List String) :
    List (List String) → Except PyExc (List Action)
  | [] => Except.ok []
  | r :: rs =>
      match processRow index_name (mkRow fns r) with
      | Except.error e => Except.error e
      | Except.ok a =>
          match generate_actions index_name fns rs with
          | Except.error e => Except.error e
          | Except.ok as => Except.ok (a :: as)

/-- A character filter definition of the settings payload. -/
structure CharFilterDef where
  type : String
  pattern : String
  replacement : String
  deriving DecidableEq, Repr

/-- A token filter definition of the settings payload. -/
structure TokenFilterDef where
  type : String
  synonyms_path : String
  deriving DecidableEq, Repr

/-- An analyzer definition of the settings payload. -/
structure AnalyzerDef where
  type : String
  char_filter : Option String
  tokenizer : String
  filter : List String
  deriving DecidableEq, Repr

/-- The `analysis` section of the settings payload. -/
structure AnalysisDef where
  char_filter : List (String × CharFilterDef)
  filter : List (String × TokenFilterDef)
  analyzer : List (String × AnalyzerDef)
  deriving DecidableEq, Repr

/-- The `settings` payload of `create_index`. -/
structure Settings where
  number_of_shards : Nat
  number_of_replicas : Nat
  analysis : AnalysisDef
  deriving DecidableEq, Repr

/-- One field mapping of the `mappings` payload. -/
structure FieldMapping where
  type : String
  analyzer : Option String
  index : Option Bool
  deriving DecidableEq, Repr

/-- The `mappings` payload of `create_index`. -/
structure Mappings where
  properties : List (String × FieldMapping)
  deriving DecidableEq, Repr

/-- The `settings` dict of src/main.py lines 15-46, verbatim. -/
def indexSettings (synonym_path : String) : Settings :=
  { number_of_shards := 1
    number_of_replicas := 0
    analysis :=
      { char_filter :=
          [("remove_special",
            { type := "pattern_replace"
              pattern := "[&\\-\\(\\)]"
              replacement := " " })]
        filter :=
          [("synonym_filter",
            { type := "synonym", synonyms_path := synonym_path })]
        analyzer :=
          [("synonym_analyzer",
            { type := "custom"
              char_filter := some "remove_special"
              tokenizer := "whitespace"
              filter := ["lowercase", "synonym_filter"] }),
           ("addr_analyzer",
            { type := "custom"
              char_filter := none
              tokenizer := "standard"
              filter := ["lowercase"] })] } }

/-- The `mappings` dict of src/main.py lines 47-70, verbatim. -/
def indexMappings : Mappings :=
  { properties :=
      [("rating_authority_name",
        { type := "text", analyzer := some "addr_analyzer", index := none }),
       ("suburb",
        { type := "text", analyzer := some "addr_analyzer", index := none }),
       ("address",
        { type := "text", analyzer := some "synonym_analyzer", index := none }),
       ("property_xcoord",
        { type := "float", analyzer := none, index := some false }),
       ("property_ycoord",
        { type := "float", analyzer := none, index := some false })] }

/-- State of one index held by the engine. -/
structure IndexMeta where
  settings : Settings
  mappings : Mappings
  docs : List (Val × List (String × Val))
  deriving DecidableEq, Repr

/-- State of the engine: its named indices. -/
structure EsState where
  indices : List (String × IndexMeta)
  deriving DecidableEq, Repr

/-- Queries the script uses. -/
inductive Query where
  | matchAll
  deriving DecidableEq, Repr

/-- Engine-side errors the model distinguishes. -/
inductive EsError where
  | indexNotFound (index_name : String)
  deriving DecidableEq, Repr

/-- One engine wire request, as observed on the trace. -/
inductive Request where
  | pingR
  | existsR (index_name : String)
  | createR (index_name : String) (settings : Settings) (mappings : Mappings)
  | deleteR (index_name : String)
  | deleteByQueryR (index_name : String) (q : Query)
  | bulkR (actions : List Action)
  deriving DecidableEq, Repr

/-- `client.indices.exists(index=name)`. -/
def esExists (st : EsState) (index_name : String) : Bool :=
  (List.lookup index_name st.indices).isSome

/-- `create_index` (src/main.py lines 6-79): check existence; when the index
already exists, log and return; otherwise issue the creation request with the
fixed settings and mappings. Returns the new state, the request trace, and the
printed log lines. -/
def create_index (st : EsState) (index_name : String) (synonym_path : String) :
    EsState × List Request × List String :=
  if esExists st index_name then
    (st, [Request.existsR index_name],
     ["Quitting creation procedure, the index " ++ index_name ++ " already exists"])
  else
    (⟨st.indices ++
        [(index_name,
          { settings := indexSettings synonym_path
            mappings := indexMappings
            docs := [] })]⟩,
     [Request.existsR index_name,
      Request.createR index_name (indexSettings synonym_path) indexMappings],
     ["Index " ++ index_name ++ " created successfully!"])

/-- `delete_index` (src/main.py lines 82-93): check existence; delete when
present, otherwise only log. -/
def delete_index (st : EsState) (index_name : String) :
    EsState × List Request × List String :=
  if esExists st index_name then
    (⟨st.indices.filter fun p => !(p.1 == index_name)⟩,
     [Request.existsR index_name, Request.deleteR index_name],
     ["Index " ++ index_name ++ " deleted successfully!"])
  else
    (st, [Request.existsR index_name],
     ["Index " ++ index_name ++ " does not exist!"])

/-- Clear the document list of the named index's entry, keeping its settings
and mappings. -/
def clearEntry (index_name : String) (p : String × IndexMeta) :
    String × IndexMeta :=
  if p.1 == index_name then (p.1, { p.2 with docs := [] }) else p

/-- Engine semantics of `delete_by_query`: on a missing index the engine
reports index-not-found (the client raises); on `match_all` every document of
the index is removed and the count of removed documents returned, settings and
mappings untouched. -/
def esDeleteByQuery (st : EsState) (index_name : String) (q : Query) :
    Except EsError (EsState × Nat) :=
  match List.lookup index_name st.indices with
  | none => Except.error (EsError.indexNotFound index_name)
  | some meta =>
      match q with
      | Query.matchAll =>
          Except.ok (⟨st.indices.map (clearEntry index_name)⟩, meta.docs.length)

/-- `truncate_es` (src/main.py lines 155-166): unconditionally issue one
delete-by-query with a match-all query; report the engine's deleted count. -/
def truncate_es (st : EsState) (index_name : String) :
    Except EsError (EsState × Nat × List String) × List Request :=
  (match esDeleteByQuery st index_name Query.matchAll with
   | Except.ok (st2, n) =>
       Except.ok
         (st2, n, ["Deleted " ++ toString n ++ " documents from " ++ index_name])
   | Except.error e => Except.error e,
   [Request.deleteByQueryR index_name Query.matchAll])

/-- Engine-side document upsert for one bulk action: last write for an id
wins; an action against an unknown index auto-creates it with engine-default
(empty) configuration, as dynamic indexing would. -/
def esPutDoc (st : EsState) (a : Action) : EsState :=
  match List.lookup a.index st.indices with
  | some _ =>
      ⟨st.indices.map fun p =>
        if p.1 == a.index then
          (p.1, { p.2 with
                  docs := (p.2.docs.filter fun d => !(d.1 == a.id)) ++ [(a.id, a.source)] })
        else p⟩
  | none =>
      ⟨st.indices ++
        [(a.index,
          { settings := ⟨1, 1, ⟨[], [], []⟩⟩
            mappings := ⟨[]⟩
            docs := [(a.id, a.source)] })]⟩

/-- `helpers.bulk`: apply every generated action to the engine. -/
def esBulk (st : EsState) (acts : List Action) : EsState :=
  acts.foldl esPutDoc st

/-- `load_es` (src/main.py lines 123-152): drive `generate_actions` over the
parsed CSV (header `fns`, records `recs`) through the bulk helper. A raised
exception from the generator propagates before the bulk request is modelled as
issued. -/
def load_es (st : EsState) (index_name : String) (path : String)
    (fns : List String) (recs : List (List String)) :
    Except PyExc (EsState × List String) × List Request :=
  match generate_actions index_name fns recs with
  | Except.ok acts =>
      (Except.ok
        (esBulk st acts,
         ["Elasticsearch data loaded successfully! (from: " ++ path ++ ")"]),
       [Request.bulkR acts])
  | Except.error e => (Except.error e, [])

/-- The hardcoded index name of the entry sequence. -/
def INDEX_NAME : String := "valocity"

/-- The `__main__` block (src/main.py lines 190-208): ping the engine; raise
`ValueError` when unreachable; otherwise delete the index, create it, and load
the CSV, in that order. `pingOk` models the engine's reachability. -/
def mainEntry (pingOk : Bool) (st : EsState)
    (fns : List String) (recs : List (List String)) :
    Except PyExc (EsState × List String) × List Request :=
  if pingOk then
    let d := delete_index st INDEX_NAME
    let c := create_index d.1 INDEX_NAME "synonyms.txt"
    let l := load_es c.1 INDEX_NAME "tmp.csv" fns recs
    (match l.1 with
     | Except.ok (st3, logs3) => Except.ok (st3, d.2.2 ++ c.2.2 ++ logs3)
     | Except.error e => Except.error e,
     Request.pingR :: (d.2.1 ++ c.2.1 ++ l.2))
  else (Except.error PyExc.valueError, [Request.pingR])

/-- Request classifiers. -/
def isPingReq : Request → Bool
  | Request.pingR => true
  | _ => false

/-- True exactly on index-creation requests. -/
def isCreateReq : Request → Bool
  | Request.createR _ _ _ => true
  | _ => false

/-- True exactly on index-deletion requests. -/
def isDeleteIdxReq : Request → Bool
  | Request.deleteR _ => true
  | _ => false

/-- True exactly on bulk-load requests. -/
def isBulkReq : Request → Bool
  | Request.bulkR _ => true
  | _ => false

/-- Membership of a character in a character class. -/
def inClass : List Char → Char → Bool
  | [], _ => false
  | d :: t, c => (d == c) || inClass t c

/-- Body of a simple regex character class: plain characters or
backslash-escaped ones; metacharacters must be escaped to be understood. -/
def parseClassBody : List Char → Option (List Char)
  | [] => some []
  | '\\' :: c :: rest => (parseClassBody rest).map (c :: ·)
  | '\\' :: [] => none
  | c :: rest =>
      if c == ']' || c == '[' || c == '\\' || c == '-' then none
      else (parseClassBody rest).map (c :: ·)

/-- A regex of the form `[...]`: a single character class. -/
def parseCharClass (p : String) : Option (List Char) :=
  match p.toList with
  | '[' :: rest =>
      match rest.reverse with
      | ']' :: revBody => parseClassBody revBody.reverse
      | _ => none
  | _ => none

/-- Semantics of the `pattern_replace` character filter for a character-class
pattern: every matching character is replaced by the replacement string. -/
def patternReplaceApply (pat rep s : String) : Option String :=
  (parseCharClass pat).map fun cls =>
    ⟨(s.toList.map fun c => if inClass cls c then rep.toList else [c]).flatten⟩

/-- Stated from the spec/claim wording, for comparison with the
`pattern_replace` filter of the source: each of the characters `&`, `-`, `(`,
`)` becomes a single space; everything else is untouched. -/
def stripSpecialSpec (s : String) : String :=
  ⟨s.toList.map fun c =>
    if c = '&' ∨ c = '-' ∨ c = '(' ∨ c = ')' then ' ' else c⟩

/-- One entry of a directory listing (one level deep; nested contents are
carried to state non-recursiveness). -/
inductive FsEntry where
  | file (name : String)
  | dir (name : String) (contents : List FsEntry)

/-- The entry's name. -/
def FsEntry.name : FsEntry → String
  | FsEntry.file n => n
  | FsEntry.dir n _ => n

/-- `Path.is_file()` for a listed entry. -/
def FsEntry.isFile : FsEntry → Bool
  | FsEntry.file _ => true
  | FsEntry.dir _ _ => false

/-- The haystack begins with the pattern. -/
def beginsWith : List Char → List Char → Bool
  | _, [] => true
  | [], _ :: _ => false
  | a :: as, b :: bs => a == b && beginsWith as bs

/-- Python's substring test: the pattern occurs contiguously in the haystack. -/
def hasSub : List Char → List Char → Bool
  | [], p => beginsWith [] p
  | c :: rest, p => beginsWith (c :: rest) p || hasSub rest p

/-- The test `"tmp" in file_path.name`. -/
def nameHasTmp (s : String) : Bool := hasSub s.toList ['t', 'm', 'p']

/-- `delete_tmp_files` (src/main.py lines 178-187) over a one-level directory
listing: unlink every regular file whose name contains `tmp`, logging each
deletion; everything else (including directories and their contents) is left
in place. Returns the surviving listing and the deletion log. -/
def delete_tmp_files : List FsEntry → List FsEntry × List String
  | [] => ([], [])
  | e :: rest =>
      let r := delete_tmp_files rest
      if e.isFile && nameHasTmp e.name then
        (r.1, ("Deleted: " ++ e.name) :: r.2)
      else (e :: r.1, r.2)

/-! ### Association-list lemmas -/

/-- Unfolding of `List.lookup` on a cons cell, in propositional form. -/
theorem lookup_cons {β : Type} (k a : String) (b : β) (t : List (String × β)) :
    List.lookup k ((a, b) :: t) = if k = a then some b else List.lookup k t := by
  by_cases h : k = a
  · subst h
    simp [List.lookup]
  · simp [List.lookup, beq_eq_false_iff_ne.mpr h, h]

/-- A key listed among an association list's keys has a value. -/
theorem lookup_isSome_of_mem_keys {β : Type} :
    ∀ (l : List (String × β)) (k : String), k ∈ l.map Prod.fst →
      (List.lookup k l).isSome
  | [], _, h => by simp at h
  | (a, b) :: t, k, h => by
      rw [lookup_cons]
      by_cases hk : k = a
      · simp [hk]
      · have hmem : k ∈ t.map Prod.fst := by
          simp only [List.map_cons, List.mem_cons] at h
          exact h.resolve_left hk
        simp [hk, lookup_isSome_of_mem_keys t k hmem]

/-- The keys of a `DictReader` row are exactly the header names. -/
theorem mkRow_keys : ∀ (fns : List String) (r : List String),
    (mkRow fns r).map Prod.fst = fns
  | [], _ => rfl
  | f :: fs, [] => by simp [mkRow, mkRow_keys fs []]
  | f :: fs, _ :: vs => by simp [mkRow, mkRow_keys fs vs]

/-- `dictUpdate` does not change the key sequence. -/
theorem dictUpdate_keys :
    ∀ (row : List (String × Val)) (c : String) (v : Val),
      (dictUpdate row c v).map Prod.fst = row.map Prod.fst
  | [], _, _ => rfl
  | (a, b) :: t, c, v => by
      by_cases hc : a = c
      · subst hc
        simp [dictUpdate, dictUpdate_keys t a v]
      · simp [dictUpdate, hc, dictUpdate_keys t c v]

/-- After `dictUpdate` on a key that is present, looking it up gives the new
value. -/
theorem lookup_dictUpdate_self :
    ∀ (row : List (String × Val)) (c : String) (v : Val),
      (List.lookup c row).isSome →
      List.lookup c (dictUpdate row c v) = some v
  | [], c, _, h => by simp [List.lookup] at h
  | (a, b) :: t, c, v, h => by
      by_cases hc : a = c
      · subst hc
        simp [dictUpdate, lookup_cons]
      · have h' : (List.lookup c t).isSome := by
          rw [lookup_cons] at h
          simpa [Ne.symm hc] using h
        simp [dictUpdate, hc, lookup_cons, Ne.symm hc,
          lookup_dictUpdate_self t c v h']

/-- `dictUpdate` leaves every other key's value unchanged. -/
theorem lookup_dictUpdate_other :
    ∀ (row : List (String × Val)) (c k : String) (v : Val), k ≠ c →
      List.lookup k (dictUpdate row c v) = List.lookup k row
  | [], _, _, _, _ => rfl
  | (a, b) :: t, c, k, v, hk => by
      by_cases hc : a = c
      · subst hc
        simp [dictUpdate, lookup_cons, hk, lookup_dictUpdate_other t a k v hk]
      · simp [dictUpdate, hc, lookup_cons,
          lookup_dictUpdate_other t c k v hk]

/-- Dropping all entries of one key makes its lookup fail. -/
theorem lookup_filterOut_self {β : Type} (c : String) :
    ∀ l : List (String × β),
      List.lookup c (l.filter fun p => !(p.1 == c)) = none
  | [] => rfl
  | (a, b) :: t => by
      by_cases hc : a = c
      · subst hc
        simp [List.filter_cons, lookup_filterOut_self a t]
      · simp [List.filter_cons, hc, lookup_cons,
          Ne.symm hc, lookup_filterOut_self c t]

/-- Clearing the documents of one index rewrites exactly that entry. -/
theorem lookup_clearDocs_self (c : String) :
    ∀ l : List (String × IndexMeta),
      List.lookup c (l.map (clearEntry c))
        = (List.lookup c l).map fun m => { m with docs := [] }
  | [] => rfl
  | (a, b) :: t => by
      rw [List.map_cons]
      by_cases hc : a = c
      · subst hc
        have h1 : clearEntry a (a, b) = (a, { b with docs := [] }) := by
          simp [clearEntry]
        rw [h1, lookup_cons, lookup_cons, if_pos rfl, if_pos rfl]
        rfl
      · have h1 : clearEntry c (a, b) = (a, b) := by
          simp [clearEntry, hc]
        rw [h1, lookup_cons, lookup_cons, if_neg (Ne.symm hc), if_neg (Ne.symm hc),
          lookup_clearDocs_self c t]

/-- Clearing the documents of one index leaves every other entry unchanged. -/
theorem lookup_clearDocs_other (c k : String) (hk : k ≠ c) :
    ∀ l : List (String × IndexMeta),
      List.lookup k (l.map (clearEntry c)) = List.lookup k l
  | [] => rfl
  | (a, b) :: t => by
      rw [List.map_cons]
      by_cases hc : a = c
      · subst hc
        have h1 : clearEntry a (a, b) = (a, { b with docs := [] }) := by
          simp [clearEntry]
        rw [h1, lookup_cons, lookup_cons, if_neg hk, if_neg hk,
          lookup_clearDocs_other a k hk t]
      · have h1 : clearEntry c (a, b) = (a, b) := by
          simp [clearEntry, hc]
        rw [h1, lookup_cons, lookup_cons, lookup_clearDocs_other c k hk t]

/-! ### Coercion lemmas -/

/-- `to_float` never raises: the builtin can only signal `ValueError` or
`TypeError` on the values this script feeds it, and both are caught. -/
theorem to_float_eq_ok (v : Val) : to_float v = Except.ok (toFloatV v) := by
  cases v with
  | vstr s => cases hp : pyFloatOfString s <;> simp [to_float, pyFloat, toFloatV, hp]
  | vnone => rfl
  | vfloat p => rfl

/-- Evaluation of `generate_actions`' body on a row whose dict contains the
two coordinate columns and the id column: the action is produced, its id is
the row's `property_id`, its source is the row with exactly the two
coordinate values passed through `to_float` and nothing else changed. -/
theorem processRow_ok (idx : String) (row : List (String × Val))
    (hx : (List.lookup "property_xcoord" row).isSome)
    (hy : (List.lookup "property_ycoord" row).isSome)
    (hid : (List.lookup "property_id" row).isSome) :
    ∃ a, processRow idx row = Except.ok a ∧
      a.index = idx ∧
      List.lookup "property_id" row = some a.id ∧
      a.source.map Prod.fst = row.map Prod.fst ∧
      (∀ k, k ≠ "property_xcoord" → k ≠ "property_ycoord" →
          List.lookup k a.source = List.lookup k row) ∧
      (∀ v, List.lookup "property_xcoord" row = some v →
          List.lookup "property_xcoord" a.source = some (toFloatV v)) ∧
      (∀ v, List.lookup "property_ycoord" row = some v →
          List.lookup "property_ycoord" a.source = some (toFloatV v)) := by
  obtain ⟨vx, hvx⟩ := Option.isSome_iff_exists.mp hx
  have hstep1 : coerceField row "property_xcoord"
      = Except.ok (dictUpdate row "property_xcoord" (toFloatV vx)) := by
    simp [coerceField, dictGet, hvx, to_float_eq_ok]
  have hy1 : List.lookup "property_ycoord"
        (dictUpdate row "property_xcoord" (toFloatV vx))
      = List.lookup "property_ycoord" row :=
    lookup_dictUpdate_other row "property_xcoord" "property_ycoord" (toFloatV vx)
      (by decide)
  obtain ⟨vy, hvy⟩ := Option.isSome_iff_exists.mp hy
  have hvy1 : List.lookup "property_ycoord"
      (dictUpdate row "property_xcoord" (toFloatV vx)) = some vy := by
    rw [hy1, hvy]
  have hstep2 : coerceField (dictUpdate row "property_xcoord" (toFloatV vx))
        "property_ycoord"
      = Except.ok (dictUpdate (dictUpdate row "property_xcoord" (toFloatV vx))
          "property_ycoord" (toFloatV vy)) := by
    simp [coerceField, dictGet, hvy1, to_float_eq_ok]
  have hid2 : List.lookup "property_id"
        (dictUpdate (dictUpdate row "property_xcoord" (toFloatV vx))
          "property_ycoord" (toFloatV vy))
      = List.lookup "property_id" row := by
    rw [lookup_dictUpdate_other _ "property_ycoord" "property_id" _ (by decide),
        lookup_dictUpdate_other _ "property_xcoord" "property_id" _ (by decide)]
  obtain ⟨pid, hpid⟩ := Option.isSome_iff_exists.mp hid
  have hpid2 : List.lookup "property_id"
      (dictUpdate (dictUpdate row "property_xcoord" (toFloatV vx))
        "property_ycoord" (toFloatV vy)) = some pid := by
    rw [hid2, hpid]
  refine ⟨⟨idx, pid,
      dictUpdate (dictUpdate row "property_xcoord" (toFloatV vx))
        "property_ycoord" (toFloatV vy)⟩, ?_, rfl, ?_, ?_, ?_, ?_, ?_⟩
  · simp [processRow, hstep1, hstep2, dictGet, hpid2]
  · rw [hpid]
  · rw [dictUpdate_keys, dictUpdate_keys]
  · intro k hkx hky
    rw [lookup_dictUpdate_other _ "property_ycoord" k _ hky,
        lookup_dictUpdate_other _ "property_xcoord" k _ hkx]
  · intro v hv
    have hveq : v = vx := by
      rw [hvx] at hv
      exact (Option.some_injective _ hv).symm
    subst hveq
    rw [lookup_dictUpdate_other _ "property_ycoord" "property_xcoord" _ (by decide),
        lookup_dictUpdate_self row "property_xcoord" (toFloatV v) hx]
  · intro v hv
    have hveq : v = vy := by
      rw [hvy] at hv
      exact (Option.some_injective _ hv).symm
    subst hveq
    exact lookup_dictUpdate_self _ "property_ycoord" (toFloatV v)
      (Option.isSome_iff_exists.mpr ⟨v, hvy1⟩)

/-! ### Character-filter semantics -/

/-- Flattening singleton images is mapping. -/
theorem flatten_map_singleton (h : Char → Char) :
    ∀ l : List Char, (l.map fun c => [h c]).flatten = l.map h
  | [] => rfl
  | a :: t => by simp [flatten_map_singleton h t]

/-- The `remove_special` pattern-replace filter of the source, applied with
its single-space replacement, turns each of `&`, `-`, `(`, `)` into one space
and leaves every other character alone. -/
theorem patternReplace_remove_special (s : String) :
    patternReplaceApply "[&\\-\\(\\)]" " " s = some (stripSpecialSpec s) := by
  have hcls : parseCharClass "[&\\-\\(\\)]" = some ['&', '-', '(', ')'] := by decide
  have hlist : ∀ l : List Char,
      (l.map fun c =>
          if inClass ['&', '-', '(', ')'] c then " ".toList else [c]).flatten
        = l.map fun c =>
            if c = '&' ∨ c = '-' ∨ c = '(' ∨ c = ')' then ' ' else c := by
    intro l
    induction l with
    | nil => rfl
    | cons a t ih =>
        simp only [List.map_cons, List.flatten_cons, ih]
        have hsingle : (if inClass ['&', '-', '(', ')'] a then " ".toList else [a])
            = [if a = '&' ∨ a = '-' ∨ a = '(' ∨ a = ')' then ' ' else a] := by
          by_cases h : a = '&' ∨ a = '-' ∨ a = '(' ∨ a = ')'
          · have hin : inClass ['&', '-', '(', ')'] a = true := by
              rcases h with h | h | h | h <;> subst h <;> rfl
            rw [if_pos h, hin, if_pos rfl]
            rfl
          · have hin : inClass ['&', '-', '(', ')'] a = false := by
              push_neg at h
              obtain ⟨h1, h2, h3, h4⟩ := h
              simp [inClass, beq_eq_false_iff_ne.mpr (Ne.symm h1),
                beq_eq_false_iff_ne.mpr (Ne.symm h2),
                beq_eq_false_iff_ne.mpr (Ne.symm h3),
                beq_eq_false_iff_ne.mpr (Ne.symm h4)]
            rw [if_neg h, hin]
            simp
        rw [hsingle]
        rfl
  rw [patternReplaceApply, hcls, Option.map_some', stripSpecialSpec]
  exact congrArg some (congrArg String.mk (hlist s.toList))

/-! ### Request-trace shape lemmas -/

/-- The requests `delete_index` issues are the existence check and possibly
the deletion. -/
theorem delete_index_trace (st : EsState) (n : String) :
    ∀ req ∈ (delete_index st n).2.1,
      req = Request.existsR n ∨ req = Request.deleteR n := by
  intro req hreq
  by_cases h : esExists st n
  · simp [delete_index, h] at hreq
    rcases hreq with h1 | h1 <;> simp [h1]
  · simp [delete_index, h] at hreq
    simp [hreq]

/-- The requests `create_index` issues are the existence check and possibly
the creation. -/
theorem create_index_trace (st : EsState) (n p : String) :
    ∀ req ∈ (create_index st n p).2.1,
      req = Request.existsR n ∨
        req = Request.createR n (indexSettings p) indexMappings := by
  intro req hreq
  by_cases h : esExists st n
  · simp [create_index, h] at hreq
    simp [hreq]
  · simp [create_index, h] at hreq
    rcases hreq with h1 | h1 <;> simp [h1]

/-- The only request `load_es` can issue is a bulk request. -/
theorem load_es_trace (st : EsState) (n path : String) (fns : List String)
    (recs : List (List String)) :
    ∀ req ∈ (load_es st n path fns recs).2, ∃ as, req = Request.bulkR as := by
  intro req hreq
  cases hga : generate_actions n fns recs with
  | ok acts =>
      simp [load_es, hga] at hreq
      exact ⟨acts, hreq⟩
  | error e => simp [load_es, hga] at hreq

/-! ### Claim theorems -/

/-- C1, counterexample. The claim asserts that a missing coordinate column is
recovered by setting the field to the no-value marker so the row is still
loaded. On a CSV whose header lacks `property_xcoord`, the read
`row["property_xcoord"]` happens before `to_float` runs, so `generate_actions`
raises `KeyError` and the row is not loaded: the `try/except` inside
`to_float` only guards the `float(value)` call, not the dict access. -/
theorem generate_actions_missing_column_raises :
    generate_actions "valocity" ["property_id"] [["p1"]]
      = Except.error (PyExc.keyError "property_xcoord") := by
  rfl

/-- C1, amended. For every row whose header contains the coordinate columns
(and the id column), the conversion of `property_xcoord` and
`property_ycoord` is attempted and any conversion failure — empty string,
non-numeric text, or a missing value in a short row — sets the field to the
no-value marker `None` instead of raising, so the row is still loaded; only a
column missing from the header itself raises. -/
theorem coercion_failure_tolerated (index_name : String) (fns : List String)
    (r : List String)
    (hx : "property_xcoord" ∈ fns) (hy : "property_ycoord" ∈ fns)
    (hid : "property_id" ∈ fns) :
    ∃ a, processRow index_name (mkRow fns r) = Except.ok a ∧
      (∀ col, col = "property_xcoord" ∨ col = "property_ycoord" →
          ∃ v0, List.lookup col (mkRow fns r) = some v0 ∧
            List.lookup col a.source = some (toFloatV v0)) ∧
      toFloatV (Val.vstr "") = Val.vnone ∧
      toFloatV Val.vnone = Val.vnone ∧
      (∀ s, pyFloatOfString s = none → toFloatV (Val.vstr s) = Val.vnone) := by
  have hx' : (List.lookup "property_xcoord" (mkRow fns r)).isSome :=
    lookup_isSome_of_mem_keys _ _ (by rw [mkRow_keys]; exact hx)
  have hy' : (List.lookup "property_ycoord" (mkRow fns r)).isSome :=
    lookup_isSome_of_mem_keys _ _ (by rw [mkRow_keys]; exact hy)
  have hid' : (List.lookup "property_id" (mkRow fns r)).isSome :=
    lookup_isSome_of_mem_keys _ _ (by rw [mkRow_keys]; exact hid)
  obtain ⟨a, hrun, _, _, _, _, hxc, hyc⟩ :=
    processRow_ok index_name (mkRow fns r) hx' hy' hid'
  refine ⟨a, hrun, ?_, rfl, rfl, ?_⟩
  · intro col hcol
    rcases hcol with h | h
    · subst h
      obtain ⟨v0, hv0⟩ := Option.isSome_iff_exists.mp hx'
      exact ⟨v0, hv0, hxc v0 hv0⟩
    · subst h
      obtain ⟨v0, hv0⟩ := Option.isSome_iff_exists.mp hy'
      exact ⟨v0, hv0, hyc v0 hv0⟩
  · intro s hs
    simp [toFloatV, hs]

/-- C1 witness: a concrete six-column row with one malformed coordinate is
loaded with that coordinate set to the no-value marker. -/
theorem coercion_failure_tolerated_witness :
    ∃ a, processRow "valocity"
        (mkRow
          ["property_id", "rating_authority_name", "suburb", "address",
           "property_xcoord", "property_ycoord"]
          ["p1", "auth", "sub", "addr", "N/A", "2.5"]) = Except.ok a := by
  obtain ⟨a, ha, -⟩ :=
    coercion_failure_tolerated "valocity"
      ["property_id", "rating_authority_name", "suburb", "address",
       "property_xcoord", "property_ycoord"]
      ["p1", "auth", "sub", "addr", "N/A", "2.5"]
      (by decide) (by decide) (by decide)
  exact ⟨a, ha⟩

/-- C2: when `create_index` issues its creation request, that request carries
the source's settings and mappings, in which: the only character filter is
`remove_special`, a `pattern_replace` whose pattern denotes the class
`& - ( )` and whose replacement is a single space (its application replaces
each such character by one space); there are exactly two custom analyzers —
`synonym_analyzer` (the char filter, whitespace tokenizer, lowercase, synonym
filter) and `addr_analyzer` (standard tokenizer, lowercase, no char filter
and no synonym filter); `address` is mapped to `synonym_analyzer`, while
`rating_authority_name` and `suburb` are mapped to `addr_analyzer`; and the
two coordinate fields are mapped as `float` with `index: false`. -/
theorem create_index_request_config (st : EsState)
    (index_name synonym_path : String) (h : esExists st index_name = false) :
    (create_index st index_name synonym_path).2.1
      = [Request.existsR index_name,
         Request.createR index_name (indexSettings synonym_path) indexMappings] ∧
    (indexSettings synonym_path).analysis.char_filter
      = [("remove_special",
          { type := "pattern_replace", pattern := "[&\\-\\(\\)]",
            replacement := " " })] ∧
    (∀ s, patternReplaceApply "[&\\-\\(\\)]" " " s = some (stripSpecialSpec s)) ∧
    (indexSettings synonym_path).analysis.analyzer
      = [("synonym_analyzer",
          { type := "custom", char_filter := some "remove_special",
            tokenizer := "whitespace",
            filter := ["lowercase", "synonym_filter"] }),
         ("addr_analyzer",
          { type := "custom", char_filter := none, tokenizer := "standard",
            filter := ["lowercase"] })] ∧
    List.lookup "address" indexMappings.properties
      = some { type := "text", analyzer := some "synonym_analyzer", index := none } ∧
    List.lookup "rating_authority_name" indexMappings.properties
      = some { type := "text", analyzer := some "addr_analyzer", index := none } ∧
    List.lookup "suburb" indexMappings.properties
      = some { type := "text", analyzer := some "addr_analyzer", index := none } ∧
    List.lookup "property_xcoord" indexMappings.properties
      = some { type := "float", analyzer := none, index := some false } ∧
    List.lookup "property_ycoord" indexMappings.properties
      = some { type := "float", analyzer := none, index := some false } := by
  refine ⟨?_, rfl, patternReplace_remove_special, rfl, ?_, ?_, ?_, ?_, ?_⟩
  · simp [create_index, h]
  all_goals decide

/-- C2 witness: creating the index on an empty engine issues exactly the
existence check followed by the creation request. -/
theorem create_index_request_config_witness :
    (create_index ⟨[]⟩ "valocity" "synonyms.txt").2.1
      = [Request.existsR "valocity",
         Request.createR "valocity" (indexSettings "synonyms.txt") indexMappings] :=
  (create_index_request_config ⟨[]⟩ "valocity" "synonyms.txt" (by decide)).1

/-- C3: over a CSV whose header contains the id and coordinate columns
(without duplicates; records no longer than the header and non-blank, per the
CSV interface), `generate_actions` yields exactly one action per row; each
action targets the given index, its `_id` is that row's unchanged
`property_id` value, and its `_source` is the row itself: same keys, the two
coordinate fields coerced through `to_float`, every other field untouched. -/
theorem generate_actions_per_row (index_name : String) (fns : List String)
    (recs : List (List String))
    (hx : "property_xcoord" ∈ fns) (hy : "property_ycoord" ∈ fns)
    (hid : "property_id" ∈ fns) (_hnd : fns.Nodup)
    (hrec : ∀ r ∈ recs, r ≠ [] ∧ r.length ≤ fns.length) :
    ∃ acts, generate_actions index_name fns recs = Except.ok acts ∧
      acts.length = recs.length ∧
      List.Forall₂ (fun r a =>
        a.index = index_name ∧
        List.lookup "property_id" (mkRow fns r) = some a.id ∧
        a.source.map Prod.fst = fns ∧
        (∀ k, k ≠ "property_xcoord" → k ≠ "property_ycoord" →
            List.lookup k a.source = List.lookup k (mkRow fns r)) ∧
        (∀ v, List.lookup "property_xcoord" (mkRow fns r) = some v →
            List.lookup "property_xcoord" a.source = some (toFloatV v)) ∧
        (∀ v, List.lookup "property_ycoord" (mkRow fns r) = some v →
            List.lookup "property_ycoord" a.source = some (toFloatV v)))
        recs acts := by
  induction recs with
  | nil => exact ⟨[], rfl, rfl, List.Forall₂.nil⟩
  | cons r rs ih =>
      have hx' : (List.lookup "property_xcoord" (mkRow fns r)).isSome :=
        lookup_isSome_of_mem_keys _ _ (by rw [mkRow_keys]; exact hx)
      have hy' : (List.lookup "property_ycoord" (mkRow fns r)).isSome :=
        lookup_isSome_of_mem_keys _ _ (by rw [mkRow_keys]; exact hy)
      have hid' : (List.lookup "property_id" (mkRow fns r)).isSome :=
        lookup_isSome_of_mem_keys _ _ (by rw [mkRow_keys]; exact hid)
      obtain ⟨a, hrun, hidx, hpid, hkeys, hother, hxc, hyc⟩ :=
        processRow_ok index_name (mkRow fns r) hx' hy' hid'
      obtain ⟨as, hgen, hlen, hfa⟩ :=
        ih fun q hq => hrec q (List.mem_cons_of_mem r hq)
      refine ⟨a :: as, ?_, ?_, ?_⟩
      · simp [generate_actions, hrun, hgen]
      · simp [hlen]
      · exact List.Forall₂.cons
          ⟨hidx, hpid, by rw [hkeys, mkRow_keys], hother, hxc, hyc⟩ hfa

/-- C3 witness: a concrete one-row CSV yields exactly one action. -/
theorem generate_actions_per_row_witness :
    ∃ acts, generate_actions "valocity"
        ["property_id", "rating_authority_name", "suburb", "address",
         "property_xcoord", "property_ycoord"]
        [["p1", "auth", "sub", "addr", "1.5", "2.5"]] = Except.ok acts ∧
      acts.length = 1 := by
  obtain ⟨acts, hgen, hlen, -⟩ :=
    generate_actions_per_row "valocity"
      ["property_id", "rating_authority_name", "suburb", "address",
       "property_xcoord", "property_ycoord"]
      [["p1", "auth", "sub", "addr", "1.5", "2.5"]]
      (by decide) (by decide) (by decide) (by decide) (by decide)
  exact ⟨acts, hgen, by simpa using hlen⟩

/-- C4: `create_index` on an existing index leaves the engine state unchanged,
issues only the existence check (no creation request), and logs; on an absent
index it issues the existence check followed by exactly one creation
request. -/
theorem create_index_exists_guard (st : EsState)
    (index_name synonym_path : String) :
    (esExists st index_name = true →
        (create_index st index_name synonym_path).1 = st ∧
        (create_index st index_name synonym_path).2.1
          = [Request.existsR index_name] ∧
        (create_index st index_name synonym_path).2.2 ≠ []) ∧
    (esExists st index_name = false →
        (create_index st index_name synonym_path).2.1
          = [Request.existsR index_name,
             Request.createR index_name (indexSettings synonym_path)
               indexMappings]) := by
  constructor
  · intro h
    simp [create_index, h]
  · intro h
    simp [create_index, h]

/-- C4 witness: on a state already holding `valocity`, creation is skipped
and the state is returned unchanged. -/
theorem create_index_exists_guard_witness :
    (create_index
        ⟨[("valocity", ⟨indexSettings "synonyms.txt", indexMappings, []⟩)]⟩
        "valocity" "synonyms.txt").1
      = ⟨[("valocity", ⟨indexSettings "synonyms.txt", indexMappings, []⟩)]⟩ :=
  ((create_index_exists_guard
      ⟨[("valocity", ⟨indexSettings "synonyms.txt", indexMappings, []⟩)]⟩
      "valocity" "synonyms.txt").1 (by decide)).1

/-- C5: `delete_index` always returns normally after logging; it issues the
deletion request exactly when the index exists (after which the index is
gone), and performs no engine mutation otherwise. -/
theorem delete_index_idempotent (st : EsState) (index_name : String) :
    (delete_index st index_name).2.2 ≠ [] ∧
    (esExists st index_name = true →
        (delete_index st index_name).2.1
          = [Request.existsR index_name, Request.deleteR index_name] ∧
        esExists (delete_index st index_name).1 index_name = false) ∧
    (esExists st index_name = false →
        (delete_index st index_name).2.1 = [Request.existsR index_name] ∧
        (delete_index st index_name).1 = st) := by
  refine ⟨?_, ?_, ?_⟩
  · by_cases h : esExists st index_name <;> simp [delete_index, h]
  · intro h
    refine ⟨by simp [delete_index, h], ?_⟩
    simp only [delete_index, h, if_true]
    simp [esExists, lookup_filterOut_self]
  · intro h
    simp [delete_index, h]

/-- C5 witness: deleting a non-existent index returns the state unchanged
after only the existence check. -/
theorem delete_index_idempotent_witness :
    (delete_index ⟨[]⟩ "valocity").1 = ⟨[]⟩ :=
  ((delete_index_idempotent ⟨[]⟩ "valocity").2.2 (by decide)).2

/-- C6: `delete_tmp_files` removes exactly the listed regular files whose name
contains `tmp`; directories (with all their contents) and files without `tmp`
survive untouched, so only one directory level is affected. On the concrete
listing `a_tmp.csv`, `keep.csv`, `tmp2.txt` it deletes the first and third
and keeps `keep.csv`. -/
theorem delete_tmp_files_spec :
    (∀ entries : List FsEntry,
        (delete_tmp_files entries).1
          = entries.filter fun e => !(e.isFile && nameHasTmp e.name)) ∧
    (∀ entries : List FsEntry,
        (delete_tmp_files entries).2
          = (entries.filter fun e => e.isFile && nameHasTmp e.name).map
              fun e => "Deleted: " ++ e.name) ∧
    (delete_tmp_files
        [FsEntry.file "a_tmp.csv", FsEntry.file "keep.csv",
         FsEntry.file "tmp2.txt"]).1
      = [FsEntry.file "keep.csv"] ∧
    (delete_tmp_files
        [FsEntry.file "a_tmp.csv", FsEntry.file "keep.csv",
         FsEntry.file "tmp2.txt"]).2
      = ["Deleted: a_tmp.csv", "Deleted: tmp2.txt"] := by
  have hkeep : ∀ entries : List FsEntry,
      (delete_tmp_files entries).1
        = entries.filter fun e => !(e.isFile && nameHasTmp e.name) := by
    intro entries
    induction entries with
    | nil => rfl
    | cons e t ih =>
        cases hf : e.isFile <;> cases ht : nameHasTmp e.name <;>
          simp [delete_tmp_files, List.filter_cons, hf, ht, ih]
  have hlog : ∀ entries : List FsEntry,
      (delete_tmp_files entries).2
        = (entries.filter fun e => e.isFile && nameHasTmp e.name).map
            fun e => "Deleted: " ++ e.name := by
    intro entries
    induction entries with
    | nil => rfl
    | cons e t ih =>
        cases hf : e.isFile <;> cases ht : nameHasTmp e.name <;>
          simp [delete_tmp_files, List.filter_cons, hf, ht, ih]
  have h1 : nameHasTmp "a_tmp.csv" = true := by decide
  have h2 : nameHasTmp "keep.csv" = false := by decide
  have h3 : nameHasTmp "tmp2.txt" = true := by decide
  refine ⟨hkeep, hlog, ?_, ?_⟩
  · rw [hkeep]
    simp [List.filter_cons, FsEntry.isFile, FsEntry.name, h1, h2, h3]
  · rw [hlog]
    simp [List.filter_cons, FsEntry.isFile, FsEntry.name, h1, h2, h3]

/-- C7: `truncate_es` on an existing index issues exactly one request — a
delete-by-query with a match-all query (no index deletion, no creation) —
reports the engine's deleted count, and afterwards the index still exists
with its original settings and mappings but no documents; other indices are
untouched. -/
theorem truncate_es_spec (st : EsState) (index_name : String)
    (meta : IndexMeta) (h : List.lookup index_name st.indices = some meta) :
    (truncate_es st index_name).2
      = [Request.deleteByQueryR index_name Query.matchAll] ∧
    ∃ st2, (truncate_es st index_name).1
        = Except.ok (st2, meta.docs.length,
            ["Deleted " ++ toString meta.docs.length ++ " documents from "
              ++ index_name]) ∧
      List.lookup index_name st2.indices = some { meta with docs := [] } ∧
      ∀ k, k ≠ index_name →
        List.lookup k st2.indices = List.lookup k st.indices := by
  refine ⟨rfl, ⟨⟨st.indices.map (clearEntry index_name)⟩, ?_, ?_, ?_⟩⟩
  · simp [truncate_es, esDeleteByQuery, h]
  · rw [lookup_clearDocs_self, h]
    rfl
  · intro k hk
    exact lookup_clearDocs_other index_name k hk st.indices

/-- C7 witness: truncating a concrete one-document index reports one deleted
document and issues only the delete-by-query. -/
theorem truncate_es_spec_witness :
    (truncate_es
        ⟨[("valocity",
           ⟨indexSettings "synonyms.txt", indexMappings,
            [(Val.vstr "p1", [("suburb", Val.vstr "s")])]⟩)]⟩
        "valocity").2
      = [Request.deleteByQueryR "valocity" Query.matchAll] :=
  (truncate_es_spec
      ⟨[("valocity",
         ⟨indexSettings "synonyms.txt", indexMappings,
          [(Val.vstr "p1", [("suburb", Val.vstr "s")])]⟩)]⟩
      "valocity"
      ⟨indexSettings "synonyms.txt", indexMappings,
       [(Val.vstr "p1", [("suburb", Val.vstr "s")])]⟩
      (by decide)).1

/-- C8: the entry sequence pings first (its ping is the first trace entry and
the only one); if the ping fails it raises `ValueError` having issued no other
engine request; if it succeeds, the trace is the ping followed by a segment
with no creation or bulk request (the delete phase), then a segment with no
deletion or bulk request (the create phase), then a segment with no deletion
or creation request (the load phase) — so no load is issued before the delete
and create phases completed. -/
theorem main_entry_sequence (pingOk : Bool) (st : EsState)
    (fns : List String) (recs : List (List String)) :
    (mainEntry pingOk st fns recs).2.head? = some Request.pingR ∧
    (pingOk = false →
        (mainEntry pingOk st fns recs).1 = Except.error PyExc.valueError ∧
        (mainEntry pingOk st fns recs).2 = [Request.pingR]) ∧
    (pingOk = true →
        ∃ p1 p2 p3,
          (mainEntry pingOk st fns recs).2
            = Request.pingR :: (p1 ++ p2 ++ p3) ∧
          (∀ req ∈ p1, isPingReq req = false ∧ isCreateReq req = false ∧
              isBulkReq req = false) ∧
          (∀ req ∈ p2, isPingReq req = false ∧ isDeleteIdxReq req = false ∧
              isBulkReq req = false) ∧
          (∀ req ∈ p3, isPingReq req = false ∧ isDeleteIdxReq req = false ∧
              isCreateReq req = false)) := by
  cases pingOk with
  | false =>
      exact ⟨rfl, fun _ => ⟨rfl, rfl⟩, fun hcon => absurd hcon (by decide)⟩
  | true =>
      refine ⟨rfl, fun hcon => absurd hcon (by decide), fun _ => ?_⟩
      · refine ⟨(delete_index st INDEX_NAME).2.1,
          (create_index (delete_index st INDEX_NAME).1 INDEX_NAME
            "synonyms.txt").2.1,
          (load_es (create_index (delete_index st INDEX_NAME).1 INDEX_NAME
            "synonyms.txt").1 INDEX_NAME "tmp.csv" fns recs).2,
          rfl, ?_, ?_, ?_⟩
        · intro req hreq
          rcases delete_index_trace st INDEX_NAME req hreq with h | h <;>
            subst h <;> exact ⟨rfl, rfl, rfl⟩
        · intro req hreq
          rcases create_index_trace (delete_index st INDEX_NAME).1 INDEX_NAME
              "synonyms.txt" req hreq with h | h <;>
            subst h <;> exact ⟨rfl, rfl, rfl⟩
        · intro req hreq
          obtain ⟨as, h⟩ := load_es_trace _ INDEX_NAME "tmp.csv" fns recs req hreq
          subst h
          exact ⟨rfl, rfl, rfl⟩

/-- C8 witness: with the engine unreachable, the run raises and the trace is
the single ping. -/
theorem main_entry_sequence_witness :
    (mainEntry false ⟨[]⟩ [] []).1 = Except.error PyExc.valueError ∧
    (mainEntry false ⟨[]⟩ [] []).2 = [Request.pingR] :=
  (main_entry_sequence false ⟨[]⟩ [] []).2.1 rfl

/-- C9: `truncate_es` checks nothing before acting — it issues the
delete-by-query even for a non-existent index and the engine error
propagates, whereas `delete_index` on the same state skips the deletion and
returns normally with the state unchanged. -/
theorem truncate_es_no_existence_check (st : EsState) (index_name : String)
    (h : esExists st index_name = false) :
    (truncate_es st index_name).2
      = [Request.deleteByQueryR index_name Query.matchAll] ∧
    (truncate_es st index_name).1
      = Except.error (EsError.indexNotFound index_name) ∧
    (delete_index st index_name).1 = st ∧
    (delete_index st index_name).2.1 = [Request.existsR index_name] := by
  have hl : List.lookup index_name st.indices = none := by
    cases hx : List.lookup index_name st.indices with
    | none => rfl
    | some m => simp [esExists, hx] at h
  refine ⟨rfl, ?_, ?_, ?_⟩
  · simp [truncate_es, esDeleteByQuery, hl]
  · simp [delete_index, h]
  · simp [delete_index, h]

/-- C9 witness: truncating a missing index on the empty engine propagates the
engine's index-not-found error. -/
theorem truncate_es_no_existence_check_witness :
    (truncate_es ⟨[]⟩ "valocity").1
      = Except.error (EsError.indexNotFound "valocity") :=
  (truncate_es_no_existence_check ⟨[]⟩ "valocity" (by decide)).2.1

/-- C10: `to_float` is total on the values the CSV reader can supply: on any
string it returns (never raises) the parsed float exactly when the string
parses as a Python float and the no-value marker `None` in every other case,
and on `None` it returns `None`. -/
theorem to_float_total :
    (∀ s : String, to_float (Val.vstr s)
        = Except.ok
            (match pyFloatOfString s with
             | some p => Val.vfloat p
             | none => Val.vnone)) ∧
    to_float Val.vnone = Except.ok Val.vnone := by
  refine ⟨?_, rfl⟩
  intro s
  rw [to_float_eq_ok]
  rfl

end Main
